import Mathlib

/-!
Shallow embedding of the FinancialFreedomSimulator repository
(taxes.py, tax_estimator.py, helpers.py, simulator.py).

Money amounts, prices and share counts are modelled as exact rationals
(the Python source uses IEEE floats; the algorithms themselves are plain
field arithmetic, comparisons, `max`/`min`, a 2-decimal rounding and a
relative-tolerance comparison, all of which are expressed here over `ℚ`).
Functions that raise exceptions in Python are modelled with `Option`:
`none` is a raised error that escapes the modelled call.
-/

/-- The `math.isclose(a, b, rel_tol=1e-4)` check used by
`TaxBase.nr_shares_for_net_proceeds` in taxes.py (default `abs_tol = 0`). -/
def isclose (a b : ℚ) : Bool := |a - b| ≤ (1 / 10000) * max |a| |b|

/-- Python `round(x, 2)` as used by the `sell_net_volume` loop condition in
tax_estimator.py, modelled with round-to-nearest (Python rounds ties to even;
no statement below depends on an exact two-decimal tie). -/
def round2 (q : ℚ) : ℚ := (round (q * 100) : ℤ) / 100

/-- The `TaxBase` dataclass of taxes.py. -/
structure TaxBase where
  tax_exemption : ℚ
  loss_pot : ℚ
  withheld_taxes : ℚ
  tax_rate : ℚ
deriving DecidableEq

/-- `TaxBase.determine_taxable` (taxes.py lines 96-112). -/
def TaxBase.determine_taxable (tb : TaxBase) (sale_price historical_price nr_shares : ℚ) : ℚ :=
  let gain_loss := nr_shares * (sale_price - historical_price)
  let residual_gain_loss := max 0 (gain_loss - tb.loss_pot)
  if residual_gain_loss > 0 then max 0 (residual_gain_loss - tb.tax_exemption) else 0

/-- `TaxBase.calculate_taxes` (taxes.py lines 156-170): returns
(absolute taxes, relative taxes); the `ZeroDivisionError` on a zero
transaction volume is caught and replaced by `0`. -/
def TaxBase.calculate_taxes (tb : TaxBase) (taxable sale_price nr_shares : ℚ) : ℚ × ℚ :=
  let taxes_abs := taxable * tb.tax_rate
  let taxes_rel := if sale_price * nr_shares = 0 then 0 else taxes_abs / (sale_price * nr_shares)
  (taxes_abs, taxes_rel)

/-- `TaxBase.determine_net_proceeds` (taxes.py lines 114-126). -/
def TaxBase.determine_net_proceeds (tb : TaxBase) (nr_shares sale_price historical_price : ℚ) : ℚ :=
  let taxable := tb.determine_taxable sale_price historical_price nr_shares
  let taxes_abs := (tb.calculate_taxes taxable sale_price nr_shares).1
  nr_shares * sale_price - taxes_abs

/-- The `req_shares` computation inside `TaxBase.nr_shares_for_net_proceeds`
(taxes.py lines 40-52), named so the solver and its proofs can share it.
The dead local recomputation of `net_proceeds` at lines 53-54 (overwritten at
line 57 before any use) is omitted. -/
def TaxBase.req_shares_calc (tb : TaxBase) (target_net_proceeds sale_price historical_price : ℚ) :
    ℚ :=
  if sale_price < historical_price then target_net_proceeds / sale_price
  else
    let req_shares_without_taxation := target_net_proceeds / sale_price
    let resulting_gain := req_shares_without_taxation * (sale_price - historical_price)
    if resulting_gain ≤ tb.tax_exemption + tb.loss_pot then req_shares_without_taxation
    else
      (tb.tax_exemption + tb.loss_pot) / (sale_price - historical_price) +
        (target_net_proceeds -
            (tb.tax_exemption + tb.loss_pot) / (sale_price - historical_price) * sale_price) /
          (sale_price - (sale_price - historical_price) * tb.tax_rate)

/-- `TaxBase.nr_shares_for_net_proceeds` (taxes.py lines 29-68). `none` models a
raised `ValueError`: non-positive input (via `helpers.validate_positive_numbers`),
a failed `math.isclose` round-trip check, or a negative share count. -/
def TaxBase.nr_shares_for_net_proceeds (tb : TaxBase)
    (target_net_proceeds sale_price historical_price : ℚ) : Option ℚ :=
  if target_net_proceeds ≤ 0 ∨ sale_price ≤ 0 ∨ historical_price ≤ 0 then none
  else
    let req_shares := tb.req_shares_calc target_net_proceeds sale_price historical_price
    let taxable := tb.determine_taxable sale_price historical_price req_shares
    let taxes_abs := (tb.calculate_taxes taxable sale_price req_shares).1
    let net_proceeds := req_shares * sale_price - taxes_abs
    if isclose net_proceeds target_net_proceeds then
      if req_shares < 0 then none else some req_shares
    else none

/-- `TaxBase.adjust_taxbase_via_sale` (taxes.py lines 128-154): returns the
mutated tax base together with the result dict
(absolute taxes, relative taxes, taxable amount). -/
def TaxBase.adjust_taxbase_via_sale (tb : TaxBase) (sale_price historical_price nr_shares : ℚ) :
    TaxBase × ℚ × ℚ × ℚ :=
  let taxable := tb.determine_taxable sale_price historical_price nr_shares
  let taxes := tb.calculate_taxes taxable sale_price nr_shares
  let gain_loss := nr_shares * (sale_price - historical_price)
  let residual_gain_loss := max 0 (gain_loss - tb.loss_pot)
  ({ tb with
      withheld_taxes := tb.withheld_taxes + taxes.1
      loss_pot := max 0 (tb.loss_pot - gain_loss)
      tax_exemption := max 0 (tb.tax_exemption - residual_gain_loss) },
    taxes.1, taxes.2, taxable)

/-- `helpers.determine_investment` (helpers.py lines 71-83, identical in
simulator.py lines 66-79). -/
def determine_investment (cash_inflow living_expenses target_investment : ℚ)
    (investment_cap : Bool) : ℚ :=
  if investment_cap then max (min (cash_inflow - living_expenses) target_investment) 0
  else max (cash_inflow - living_expenses) 0

/-- `helpers.determine_survival` (helpers.py lines 116-123): true iff every
value of the series is strictly positive (numpy `(series.values > 0).all()`,
which is vacuously true for an empty series). -/
def determine_survival (series : List ℚ) : Bool := series.all (fun x => 0 < x)

/-- `helpers.analyze_survival_probability` (helpers.py lines 9-21): `none`
models the `ValueError` raised on an empty list of valuation paths. -/
def analyze_survival_probability (list_of_pf_valuations : List (List ℚ)) : Option ℚ :=
  if list_of_pf_valuations = [] then none
  else
    some (((list_of_pf_valuations.map
        (fun series => if determine_survival series then (1 : ℚ) else 0)).sum) /
      list_of_pf_valuations.length)

/-! ### Helper lemmas on the tax base -/

/-- Closed form of `determine_taxable`: the branching on
`residual_gain_loss > 0` collapses to nested `max`es once the tax
exemption is non-negative. -/
lemma taxable_closed_form (tb : TaxBase) (sale_price historical_price nr_shares : ℚ)
    (hE : 0 ≤ tb.tax_exemption) :
    tb.determine_taxable sale_price historical_price nr_shares =
      max 0 (max 0 (nr_shares * (sale_price - historical_price) - tb.loss_pot) -
        tb.tax_exemption) := by
  unfold TaxBase.determine_taxable
  set g := nr_shares * (sale_price - historical_price) with hg
  by_cases h : max 0 (g - tb.loss_pot) > 0
  · simp only [h, if_true]
  · push_neg at h
    have h0 : max 0 (g - tb.loss_pot) = 0 := le_antisymm h (le_max_left _ _)
    simp only [h0]
    rw [if_neg (lt_irrefl 0)]
    rw [max_eq_left (by linarith)]

/-- `determine_taxable` is non-negative, unconditionally. -/
lemma taxable_nonneg (tb : TaxBase) (sale_price historical_price nr_shares : ℚ) :
    0 ≤ tb.determine_taxable sale_price historical_price nr_shares := by
  unfold TaxBase.determine_taxable
  dsimp only
  split
  · exact le_max_left _ _
  · exact le_refl 0

/-- The absolute-tax component of `calculate_taxes`. -/
lemma calculate_taxes_fst (tb : TaxBase) (taxable sale_price nr_shares : ℚ) :
    (tb.calculate_taxes taxable sale_price nr_shares).1 = taxable * tb.tax_rate := rfl

/-! ### Claim theorems: TaxBase arithmetic -/

/-- C3: for non-negative share counts and a tax base with non-negative loss pot
and tax exemption, `determine_taxable` is non-negative, vanishes whenever
`sale_price ≤ historical_price`, and equals
`max 0 (max 0 (shares*(sale_price - historical_price) - loss_pot) - tax_exemption)`;
the operation is pure (it is a function of the unmodified state). -/
theorem C3_determine_taxable_spec (tb : TaxBase) (sale_price historical_price nr_shares : ℚ)
    (hn : 0 ≤ nr_shares) (hE : 0 ≤ tb.tax_exemption) (hL : 0 ≤ tb.loss_pot) :
    0 ≤ tb.determine_taxable sale_price historical_price nr_shares ∧
    (sale_price ≤ historical_price →
      tb.determine_taxable sale_price historical_price nr_shares = 0) ∧
    tb.determine_taxable sale_price historical_price nr_shares =
      max 0 (max 0 (nr_shares * (sale_price - historical_price) - tb.loss_pot) -
        tb.tax_exemption) := by
  refine ⟨taxable_nonneg _ _ _ _, ?_, taxable_closed_form _ _ _ _ hE⟩
  intro hle
  rw [taxable_closed_form _ _ _ _ hE]
  have hg : nr_shares * (sale_price - historical_price) ≤ 0 :=
    mul_nonpos_of_nonneg_of_nonpos hn (by linarith)
  have h1 : max 0 (nr_shares * (sale_price - historical_price) - tb.loss_pot) = 0 :=
    max_eq_left (by linarith)
  rw [h1, max_eq_left (by linarith)]

/-- C3 witness: the specification evaluated at a concrete sale
(2 shares bought at 100 sold at 120 against the default tax base). -/
theorem C3_witness :
    (0 : ℚ) ≤ 2 ∧ (0 : ℚ) ≤ 1000 ∧ (0 : ℚ) ≤ 0 ∧
    (0 ≤ (TaxBase.mk 1000 0 0 (26375 / 100000)).determine_taxable 120 100 2 ∧
      ((120 : ℚ) ≤ 100 →
        (TaxBase.mk 1000 0 0 (26375 / 100000)).determine_taxable 120 100 2 = 0) ∧
      (TaxBase.mk 1000 0 0 (26375 / 100000)).determine_taxable 120 100 2 =
        max 0 (max 0 (2 * ((120 : ℚ) - 100) - 0) - 1000)) :=
  ⟨by norm_num, by norm_num, le_refl 0,
    C3_determine_taxable_spec (TaxBase.mk 1000 0 0 (26375 / 100000)) 120 100 2
      (by norm_num) (by norm_num) (le_refl 0)⟩

/-- C6: `determine_investment` computes `max (min (inflow - expenses) target) 0`
when capped and `max (inflow - expenses) 0` when uncapped, is never negative,
and on the concrete scenario (10000, 3600, 4000) yields 4000 capped and
6400 uncapped. -/
theorem C6_determine_investment_spec :
    (∀ cash_inflow living_expenses target_investment : ℚ,
      determine_investment cash_inflow living_expenses target_investment true =
        max (min (cash_inflow - living_expenses) target_investment) 0 ∧
      determine_investment cash_inflow living_expenses target_investment false =
        max (cash_inflow - living_expenses) 0) ∧
    determine_investment 10000 3600 4000 true = 4000 ∧
    determine_investment 10000 3600 4000 false = 6400 ∧
    ∀ (cash_inflow living_expenses target_investment : ℚ) (investment_cap : Bool),
      0 ≤ determine_investment cash_inflow living_expenses target_investment investment_cap := by
  refine ⟨fun a b c => ⟨rfl, rfl⟩, by norm_num [determine_investment],
    by norm_num [determine_investment], ?_⟩
  intro a b c cap
  cases cap <;> simp [determine_investment]

/-- C7: `calculate_taxes` is total: the absolute taxes are `taxable * tax_rate`,
and the relative taxes are the absolute taxes divided by
`sale_price * nr_shares`, with the division-by-zero case recovered locally
as `0` rather than propagated. -/
theorem C7_calculate_taxes_total (tb : TaxBase) (taxable sale_price nr_shares : ℚ) :
    (tb.calculate_taxes taxable sale_price nr_shares).1 = taxable * tb.tax_rate ∧
    (sale_price * nr_shares = 0 →
      (tb.calculate_taxes taxable sale_price nr_shares).2 = 0) ∧
    (sale_price * nr_shares ≠ 0 →
      (tb.calculate_taxes taxable sale_price nr_shares).2 =
        taxable * tb.tax_rate / (sale_price * nr_shares)) := by
  refine ⟨rfl, ?_, ?_⟩ <;> intro h <;> simp [TaxBase.calculate_taxes, h]

/-- C7 witness: the zero-volume branch (0 shares) yields relative taxes 0, and
a positive volume yields the actual quotient. -/
theorem C7_witness :
    ((100 : ℚ) * 0 = 0 →
      ((TaxBase.mk 1000 0 0 (26375 / 100000)).calculate_taxes 500 100 0).2 = 0) ∧
    ((100 : ℚ) * 2 ≠ 0 →
      ((TaxBase.mk 1000 0 0 (26375 / 100000)).calculate_taxes 500 100 2).2 =
        500 * (26375 / 100000) / ((100 : ℚ) * 2)) ∧
    ((TaxBase.mk 1000 0 0 (26375 / 100000)).calculate_taxes 500 100 0).2 = 0 :=
  ⟨(C7_calculate_taxes_total (TaxBase.mk 1000 0 0 (26375 / 100000)) 500 100 0).2.1,
    (C7_calculate_taxes_total (TaxBase.mk 1000 0 0 (26375 / 100000)) 500 100 2).2.2,
    (C7_calculate_taxes_total (TaxBase.mk 1000 0 0 (26375 / 100000)) 500 100 0).2.1
      (by norm_num)⟩

/-! ### Claim C9: tax-base evolution under `adjust_taxbase_via_sale` -/

/-- C9 counterexample: the claim that `loss_pot` never increases fails on a
loss sale. Selling 1 share bought at 100 for 50 against the default tax base
(exemption 1000, loss pot 0) leaves a loss pot of 50 > 0. -/
theorem C9_counterexample :
    ¬ (((TaxBase.mk 1000 0 0 (26375 / 100000)).adjust_taxbase_via_sale 50 100 1).1.loss_pot ≤
      (TaxBase.mk 1000 0 0 (26375 / 100000)).loss_pot) := by
  norm_num [TaxBase.adjust_taxbase_via_sale, TaxBase.determine_taxable, TaxBase.calculate_taxes]

/-- C9 (amended): after `adjust_taxbase_via_sale` on a well-formed tax base with
non-negative share count, exemption and loss pot stay non-negative, the
exemption never increases, the loss pot does not increase *provided the sale is
not at a loss* (`historical_price ≤ sale_price`; on a loss it grows by the
realized loss), withheld taxes never decrease, and both post-values are derived
from the same pre-mutation gain. -/
theorem C9_amended_taxbase_evolution (tb : TaxBase) (sale_price historical_price nr_shares : ℚ)
    (hE : 0 ≤ tb.tax_exemption) (hL : 0 ≤ tb.loss_pot) (hW : 0 ≤ tb.withheld_taxes)
    (hr0 : 0 ≤ tb.tax_rate) (hr1 : tb.tax_rate < 1) (hn : 0 ≤ nr_shares) :
    0 ≤ (tb.adjust_taxbase_via_sale sale_price historical_price nr_shares).1.tax_exemption ∧
    0 ≤ (tb.adjust_taxbase_via_sale sale_price historical_price nr_shares).1.loss_pot ∧
    (tb.adjust_taxbase_via_sale sale_price historical_price nr_shares).1.tax_exemption ≤
      tb.tax_exemption ∧
    (historical_price ≤ sale_price →
      (tb.adjust_taxbase_via_sale sale_price historical_price nr_shares).1.loss_pot ≤
        tb.loss_pot) ∧
    tb.withheld_taxes ≤
      (tb.adjust_taxbase_via_sale sale_price historical_price nr_shares).1.withheld_taxes ∧
    (tb.adjust_taxbase_via_sale sale_price historical_price nr_shares).1.loss_pot =
      max 0 (tb.loss_pot - nr_shares * (sale_price - historical_price)) ∧
    (tb.adjust_taxbase_via_sale sale_price historical_price nr_shares).1.tax_exemption =
      max 0 (tb.tax_exemption -
        max 0 (nr_shares * (sale_price - historical_price) - tb.loss_pot)) := by
  unfold TaxBase.adjust_taxbase_via_sale
  dsimp only
  have hres : (0 : ℚ) ≤ max 0 (nr_shares * (sale_price - historical_price) - tb.loss_pot) :=
    le_max_left _ _
  refine ⟨le_max_left _ _, le_max_left _ _, ?_, ?_, ?_, rfl, rfl⟩
  · exact max_le hE (by linarith)
  · intro hle
    have hg : 0 ≤ nr_shares * (sale_price - historical_price) :=
      mul_nonneg hn (by linarith)
    exact max_le hL (by linarith)
  · have htax : 0 ≤ tb.determine_taxable sale_price historical_price nr_shares :=
      taxable_nonneg _ _ _ _
    have hmul : 0 ≤ tb.determine_taxable sale_price historical_price nr_shares * tb.tax_rate :=
      mul_nonneg htax hr0
    rw [calculate_taxes_fst]
    linarith

/-- C9 witness: the amended evolution law evaluated on a concrete gain sale
(2 shares bought at 100 sold at 120, exemption 1000, loss pot 200). -/
theorem C9_witness :
    (0 : ℚ) ≤ 1000 ∧ (0 : ℚ) ≤ 200 ∧ (0 : ℚ) ≤ 0 ∧ (0 : ℚ) ≤ 1 / 4 ∧ (1 / 4 : ℚ) < 1 ∧
    (0 : ℚ) ≤ 2 ∧
    (0 ≤ ((TaxBase.mk 1000 200 0 (1 / 4)).adjust_taxbase_via_sale 120 100 2).1.tax_exemption ∧
      0 ≤ ((TaxBase.mk 1000 200 0 (1 / 4)).adjust_taxbase_via_sale 120 100 2).1.loss_pot ∧
      ((TaxBase.mk 1000 200 0 (1 / 4)).adjust_taxbase_via_sale 120 100 2).1.tax_exemption ≤
        (TaxBase.mk 1000 200 0 (1 / 4)).tax_exemption ∧
      ((100 : ℚ) ≤ 120 →
        ((TaxBase.mk 1000 200 0 (1 / 4)).adjust_taxbase_via_sale 120 100 2).1.loss_pot ≤
          (TaxBase.mk 1000 200 0 (1 / 4)).loss_pot) ∧
      (TaxBase.mk 1000 200 0 (1 / 4)).withheld_taxes ≤
        ((TaxBase.mk 1000 200 0 (1 / 4)).adjust_taxbase_via_sale 120 100 2).1.withheld_taxes ∧
      ((TaxBase.mk 1000 200 0 (1 / 4)).adjust_taxbase_via_sale 120 100 2).1.loss_pot =
        max 0 ((200 : ℚ) - 2 * (120 - 100)) ∧
      ((TaxBase.mk 1000 200 0 (1 / 4)).adjust_taxbase_via_sale 120 100 2).1.tax_exemption =
        max 0 ((1000 : ℚ) - max 0 (2 * ((120 : ℚ) - 100) - 200))) :=
  ⟨by norm_num, by norm_num, le_refl 0, by norm_num, by norm_num, by norm_num,
    C9_amended_taxbase_evolution (TaxBase.mk 1000 200 0 (1 / 4)) 120 100 2
      (by norm_num) (by norm_num) (le_refl 0) (by norm_num) (by norm_num) (by norm_num)⟩

/-! ### The FIFO lot ledger (tax_estimator.py) -/

/-- One entry of the `Portfolio.fifo` ordered dict of tax_estimator.py:
transaction id (the key) with number of shares and historical price. -/
structure Lot where
  id : Nat
  nr_shares : ℚ
  historical_price : ℚ
deriving DecidableEq

/-- The `Portfolio` dataclass of tax_estimator.py: FIFO lot inventory (in
insertion order), running id, and the referenced `TaxBase`. -/
structure Portfolio where
  fifo : List Lot
  running_id : Nat
  tax_base : TaxBase
deriving DecidableEq

/-- `Portfolio.buy_shares` (tax_estimator.py lines 31-33). -/
def Portfolio.buy_shares (p : Portfolio) (nr_shares historical_price : ℚ) : Portfolio :=
  { p with
      fifo := p.fifo ++ [⟨p.running_id + 1, nr_shares, historical_price⟩]
      running_id := p.running_id + 1 }

/-- A sale-transaction record: the Python `OrderedDict` keyed by number of
shares sold, with value (historical price, sale price). Entries keep insertion
order; writing an existing key overwrites its value in place. -/
abbrev Transactions := List (ℚ × ℚ × ℚ)

/-- Python dict assignment `d[k] = [hp, sp]` on a `Transactions` record. -/
def dictInsert (d : Transactions) (k hp sp : ℚ) : Transactions :=
  if d.any (fun e => e.1 = k) then d.map (fun e => if e.1 = k then (k, hp, sp) else e)
  else d ++ [(k, hp, sp)]

/-- The while loop of `Portfolio.sell_shares` (tax_estimator.py lines 368-381),
structurally recursive on the FIFO list; `remaining` is
`nr_shares - shares_sold`. `none` models the `StopIteration` raised by
`next(iter(self.fifo))` on an exhausted inventory (at that point the Python
loop has drained `self.fifo` to empty). -/
def sellSharesLoop (sale_price : ℚ) :
    List Lot → ℚ → Transactions → Option (Transactions × List Lot)
  | [], remaining, txs => if remaining ≤ 0 then some (txs, []) else none
  | lot :: rest, remaining, txs =>
    if remaining ≤ 0 then some (txs, lot :: rest)
    else if remaining < lot.nr_shares then
      some (dictInsert txs remaining lot.historical_price sale_price,
        { lot with nr_shares := lot.nr_shares - remaining } :: rest)
    else
      sellSharesLoop sale_price rest (remaining - lot.nr_shares)
        (dictInsert txs lot.nr_shares lot.historical_price sale_price)

/-- The tax-adjustment loop at the end of `Portfolio.sell_shares`
(tax_estimator.py lines 383-386): one `adjust_taxbase_via_sale` per entry of
the transaction record. -/
def applyTransactionsToTaxBase (tb : TaxBase) (sale_price : ℚ) (txs : Transactions) : TaxBase :=
  txs.foldl (fun b e => (b.adjust_taxbase_via_sale sale_price e.2.1 e.1).1) tb

/-- `Portfolio.sell_shares` (tax_estimator.py lines 361-388). On success the
FIFO is consumed head-first and the tax base is adjusted once per entry of the
returned transaction record. -/
def Portfolio.sell_shares (p : Portfolio) (nr_shares sale_price : ℚ) :
    Option (Transactions × Portfolio) :=
  match sellSharesLoop sale_price p.fifo nr_shares [] with
  | none => none
  | some (txs, fifo2) =>
    some (txs, { p with
        fifo := fifo2
        tax_base := applyTransactionsToTaxBase p.tax_base sale_price txs })

/-- What survives of a FIFO inventory after a head-first sale: some prefix of
lots fully consumed, then at most the boundary lot shrunk in place (same id,
same historical price, no more shares than before), all later lots untouched. -/
def fifoRemnant (fifo fifo2 : List Lot) : Prop :=
  ∃ k, fifo2 = fifo.drop k ∨
    ∃ lot rest n2, fifo.drop k = lot :: rest ∧
      fifo2 = { lot with nr_shares := n2 } :: rest ∧ n2 ≤ lot.nr_shares

/-- The sell loop only ever drops whole head lots or shrinks the boundary lot. -/
lemma sellSharesLoop_remnant (sale_price : ℚ) :
    ∀ (fifo : List Lot) (remaining : ℚ) (txs txs2 : Transactions) (fifo2 : List Lot),
      sellSharesLoop sale_price fifo remaining txs = some (txs2, fifo2) →
      fifoRemnant fifo fifo2 := by
  intro fifo
  induction fifo with
  | nil =>
    intro remaining txs txs2 fifo2 h
    rw [sellSharesLoop] at h
    split at h
    · obtain ⟨h1, h2⟩ := Prod.ext_iff.mp (Option.some_inj.mp h)
      exact ⟨0, Or.inl (by simpa using h2.symm)⟩
    · exact absurd h (by simp)
  | cons lot rest ih =>
    intro remaining txs txs2 fifo2 h
    rw [sellSharesLoop] at h
    split at h
    · obtain ⟨h1, h2⟩ := Prod.ext_iff.mp (Option.some_inj.mp h)
      exact ⟨0, Or.inl (by simpa using h2.symm)⟩
    · split at h
      · obtain ⟨h1, h2⟩ := Prod.ext_iff.mp (Option.some_inj.mp h)
        refine ⟨0, Or.inr ⟨lot, rest, lot.nr_shares - remaining, rfl, h2.symm, by linarith⟩⟩
      · obtain ⟨k, hk⟩ := ih (remaining - lot.nr_shares)
          (dictInsert txs lot.nr_shares lot.historical_price sale_price) txs2 fifo2 h
        exact ⟨k + 1, by simpa using hk⟩

/-- C4: `sell_shares` consumes lots strictly head-first. On the concrete ledger
holding 50 shares at cost 100, 30 at 120 and 10 at 100 (bought in that order),
`sell_shares 70` at sale price 100 returns exactly the ordered transactions
[(50,100,100), (20,120,100)], shrinks the second lot in place to 10 shares
under its original id, and leaves the third lot untouched; and in general any
successful sell leaves a FIFO remnant: every lot before the boundary fully
consumed, the boundary lot at most shrunk in place, every later lot untouched. -/
theorem C4_sell_shares_fifo :
    (Portfolio.sell_shares
        ⟨[⟨1, 50, 100⟩, ⟨2, 30, 120⟩, ⟨3, 10, 100⟩], 3, ⟨1000, 0, 0, 26375 / 100000⟩⟩ 70 100 =
      some ([(50, 100, 100), (20, 120, 100)],
        ⟨[⟨2, 10, 120⟩, ⟨3, 10, 100⟩], 3, ⟨1000, 400, 0, 26375 / 100000⟩⟩)) ∧
    ∀ (p : Portfolio) (nr_shares sale_price : ℚ) (txs : Transactions) (p2 : Portfolio),
      p.sell_shares nr_shares sale_price = some (txs, p2) → fifoRemnant p.fifo p2.fifo := by
  constructor
  · norm_num [Portfolio.sell_shares, sellSharesLoop, dictInsert, applyTransactionsToTaxBase,
      TaxBase.adjust_taxbase_via_sale, TaxBase.determine_taxable, TaxBase.calculate_taxes]
  · intro p nr_shares sale_price txs p2 h
    rw [Portfolio.sell_shares] at h
    split at h
    · exact absurd h (by simp)
    · rename_i txs2 fifo2 heq
      obtain ⟨h1, h2⟩ := Prod.ext_iff.mp (Option.some_inj.mp h)
      have hrem := sellSharesLoop_remnant sale_price p.fifo nr_shares [] txs2 fifo2 heq
      dsimp only at h2
      rw [← h2]
      exact hrem

/-- C4 witness: the head-first remnant property instantiated on the concrete
three-lot ledger of the scenario. -/
theorem C4_witness :
    fifoRemnant [⟨1, 50, 100⟩, ⟨2, 30, 120⟩, ⟨3, 10, 100⟩] [⟨2, 10, 120⟩, ⟨3, 10, 100⟩] :=
  C4_sell_shares_fifo.2
    ⟨[⟨1, 50, 100⟩, ⟨2, 30, 120⟩, ⟨3, 10, 100⟩], 3, ⟨1000, 0, 0, 26375 / 100000⟩⟩ 70 100
    [(50, 100, 100), (20, 120, 100)]
    ⟨[⟨2, 10, 120⟩, ⟨3, 10, 100⟩], 3, ⟨1000, 400, 0, 26375 / 100000⟩⟩
    C4_sell_shares_fifo.1

/-- C10: the transaction record of `sell_shares` is keyed by the per-lot share
count, so two same-size lots consumed in one sell collide: selling 20 shares
from two 10-share lots (cost bases 50 and 80) yields a single record entry,
the later lot's cost basis 80 having overwritten the earlier lot's 50, and the
tax base receives one adjustment (withheld taxes 50) instead of the two
per-lot adjustments (withheld taxes 175 under lot-by-lot accounting). -/
theorem C10_transaction_key_collision :
    (Portfolio.sell_shares ⟨[⟨1, 10, 50⟩, ⟨2, 10, 80⟩], 2, ⟨0, 0, 0, 1 / 4⟩⟩ 20 100 =
      some ([(10, 80, 100)], ⟨[], 2, ⟨0, 0, 50, 1 / 4⟩⟩)) ∧
    ((⟨0, 0, 0, 1 / 4⟩ : TaxBase).adjust_taxbase_via_sale 100 50 10).1.withheld_taxes +
        ((((⟨0, 0, 0, 1 / 4⟩ : TaxBase).adjust_taxbase_via_sale 100 50 10).1.adjust_taxbase_via_sale
            100 80 10).1.withheld_taxes -
          ((⟨0, 0, 0, 1 / 4⟩ : TaxBase).adjust_taxbase_via_sale 100 50 10).1.withheld_taxes) =
      175 := by
  constructor
  · norm_num [Portfolio.sell_shares, sellSharesLoop, dictInsert, applyTransactionsToTaxBase,
      TaxBase.adjust_taxbase_via_sale, TaxBase.determine_taxable, TaxBase.calculate_taxes]
  · norm_num [TaxBase.adjust_taxbase_via_sale, TaxBase.determine_taxable,
      TaxBase.calculate_taxes]

/-! ### Claim C5: survival probability -/

/-- The list-comprehension sum of survival booleans in
`analyze_survival_probability` counts the surviving paths. -/
lemma survival_sum_eq_countP (paths : List (List ℚ)) :
    (paths.map (fun series => if determine_survival series then (1 : ℚ) else 0)).sum =
      (paths.countP (fun series => determine_survival series) : ℚ) := by
  induction paths with
  | nil => simp
  | cons s rest ih =>
    rw [List.map_cons, List.sum_cons, ih, List.countP_cons]
    by_cases h : determine_survival s <;> simp [h] <;> push_cast <;> ring

/-- C5: `analyze_survival_probability` fails on an empty path set, returns the
fraction of paths every one of whose values is strictly positive (the code's
solvency-threshold policy), and on four concrete paths of which one ends
negative and three stay positive it returns 0.75. -/
theorem C5_survival_probability :
    analyze_survival_probability [] = none ∧
    (∀ paths : List (List ℚ), paths ≠ [] →
      analyze_survival_probability paths =
        some ((paths.countP (fun series => series.all (fun x => 0 < x)) : ℚ) /
          paths.length)) ∧
    analyze_survival_probability
      [[100, 50, -10], [100, 110, 120], [5, 5, 5], [1, 2, 3]] = some (3 / 4) := by
  have hmain : ∀ paths : List (List ℚ), paths ≠ [] →
      analyze_survival_probability paths =
        some ((paths.countP (fun series => series.all (fun x => 0 < x)) : ℚ) /
          paths.length) := by
    intro paths h
    rw [analyze_survival_probability, if_neg h, survival_sum_eq_countP]
    rfl
  refine ⟨rfl, hmain, ?_⟩
  rw [hmain _ (by simp)]
  norm_num [List.countP, List.countP.go, determine_survival]

/-- C5 witness: the fraction formula applied to the concrete four-path set. -/
theorem C5_witness :
    ([[(100 : ℚ), 50, -10], [100, 110, 120], [5, 5, 5], [1, 2, 3]] : List (List ℚ)) ≠ [] ∧
    analyze_survival_probability
        [[(100 : ℚ), 50, -10], [100, 110, 120], [5, 5, 5], [1, 2, 3]] =
      some ((([[(100 : ℚ), 50, -10], [100, 110, 120], [5, 5, 5], [1, 2, 3]].countP
          (fun series => series.all (fun x => 0 < x))) : ℚ) / 4) :=
  ⟨by simp, C5_survival_probability.2.1
    [[(100 : ℚ), 50, -10], [100, 110, 120], [5, 5, 5], [1, 2, 3]] (by simp)⟩

/-! ### Claim C8: per-period portfolio update (simulator.py) -/

/-- One period of `Simulation.create_portfolio_valuations`
(simulator.py lines 318-321): a negative beginning balance is updated
additively, a non-negative one multiplicatively by `exp(log_return)`. -/
noncomputable def portfolioStep (pf_beg log_return investments disinvestments : ℝ) : ℝ :=
  if pf_beg < 0 then pf_beg + investments - disinvestments
  else Real.exp log_return * pf_beg + investments - disinvestments

/-- The row loop of `Simulation.create_portfolio_valuations`
(simulator.py lines 310-326): each row is (log return, investments,
disinvestments); the result lists (PF Beg, PF End) per period, threading each
period's ending value into the next period's beginning value. -/
noncomputable def create_portfolio_valuations (pf_beg : ℝ) :
    List (ℝ × ℝ × ℝ) → List (ℝ × ℝ)
  | [] => []
  | row :: rest =>
    (pf_beg, portfolioStep pf_beg row.1 row.2.1 row.2.2) ::
      create_portfolio_valuations (portfolioStep pf_beg row.1 row.2.1 row.2.2) rest

/-- C8: in every period of the simulated valuation series, a strictly negative
beginning value is updated additively (`pf_beg + investments − disinvestments`,
the stochastic return is *not* applied), while a non-negative beginning value
is updated multiplicatively (`exp(log_return)·pf_beg + investments −
disinvestments`). -/
theorem C8_negative_balance_additive :
    ∀ (rows : List (ℝ × ℝ × ℝ)) (pf_beg_initial : ℝ) (i : ℕ) (row : ℝ × ℝ × ℝ) (v : ℝ × ℝ),
      rows[i]? = some row →
      (create_portfolio_valuations pf_beg_initial rows)[i]? = some v →
      (v.1 < 0 → v.2 = v.1 + row.2.1 - row.2.2) ∧
      (0 ≤ v.1 → v.2 = Real.exp row.1 * v.1 + row.2.1 - row.2.2) := by
  intro rows
  induction rows with
  | nil => intro init i row v hr hv; simp at hr
  | cons r0 rest ih =>
    intro init i row v hr hv
    cases i with
    | zero =>
      rw [create_portfolio_valuations] at hv
      simp only [List.getElem?_cons_zero, Option.some_inj] at hr hv
      subst hr
      subst hv
      constructor
      · intro hneg
        simp only [portfolioStep, if_pos hneg]
      · intro hpos
        simp only [portfolioStep, if_neg (not_lt.mpr hpos)]
    | succ j =>
      rw [create_portfolio_valuations] at hv
      simp only [List.getElem?_cons_succ] at hr hv
      exact ih (portfolioStep init r0.1 r0.2.1 r0.2.2) j row v hr hv

/-- C8 witness: a period starting at −1 with investments 2 and disinvestments 3
ends at −2 (additive, no return applied); a period starting at 2 with zero log
return, investments 5 and disinvestments 1 ends at 6 (multiplicative). -/
theorem C8_witness :
    ((-2 : ℝ) = -1 + 2 - 3) ∧ ((6 : ℝ) = Real.exp 0 * 2 + 5 - 1) := by
  have h1 := C8_negative_balance_additive [((0 : ℝ), 2, 3)] (-1) 0 ((0 : ℝ), 2, 3)
    ((-1 : ℝ), (-2 : ℝ)) (by simp)
    (by norm_num [create_portfolio_valuations, portfolioStep])
  have h2 := C8_negative_balance_additive [((0 : ℝ), 5, 1)] 2 0 ((0 : ℝ), 5, 1)
    ((2 : ℝ), (6 : ℝ)) (by simp)
    (by norm_num [create_portfolio_valuations, portfolioStep, Real.exp_zero])
  exact ⟨h1.1 (by norm_num), h2.2 (by norm_num)⟩

/-! ### Claim C1: the inverse solver round-trip -/

/-- `isclose` always accepts two equal values. -/
lemma isclose_self (a : ℚ) : isclose a a = true := by
  unfold isclose
  rw [sub_self, abs_zero, max_self]
  simp only [decide_eq_true_eq]
  positivity

/-- In exact arithmetic, the `req_shares` computed by the solver is
non-negative and nets exactly the target after taxes whenever
`historical_price ≤ sale_price` and the tax base is well-formed. -/
lemma req_shares_round_trip (tb : TaxBase) (target sp hp : ℚ)
    (htarget : 0 < target) (hsp : 0 < sp) (hhp : 0 < hp) (hle : hp ≤ sp)
    (hE : 0 ≤ tb.tax_exemption) (hL : 0 ≤ tb.loss_pot)
    (hr0 : 0 ≤ tb.tax_rate) (hr1 : tb.tax_rate < 1) :
    0 ≤ tb.req_shares_calc target sp hp ∧
    tb.req_shares_calc target sp hp * sp -
      (tb.calculate_taxes (tb.determine_taxable sp hp (tb.req_shares_calc target sp hp)) sp
        (tb.req_shares_calc target sp hp)).1 = target := by
  have hnlt : ¬ sp < hp := not_lt.mpr hle
  rw [TaxBase.req_shares_calc, if_neg hnlt]
  dsimp only
  by_cases hg : target / sp * (sp - hp) ≤ tb.tax_exemption + tb.loss_pot
  · rw [if_pos hg]
    have hs_pos : 0 < target / sp := div_pos htarget hsp
    have htax : tb.determine_taxable sp hp (target / sp) = 0 := by
      rw [taxable_closed_form _ _ _ _ hE]
      have h1 : target / sp * (sp - hp) - tb.loss_pot ≤ tb.tax_exemption := by linarith
      have h2 : max 0 (target / sp * (sp - hp) - tb.loss_pot) ≤ tb.tax_exemption :=
        max_le hE h1
      rw [max_eq_left (by linarith)]
    refine ⟨hs_pos.le, ?_⟩
    rw [htax, calculate_taxes_fst, zero_mul, sub_zero]
    exact div_mul_cancel₀ target (ne_of_gt hsp)
  · rw [if_neg hg]
    push_neg at hg
    have hd : 0 < sp - hp := by
      rcases lt_or_eq_of_le hle with h | h
      · linarith
      · exfalso
        rw [← h, sub_self, mul_zero] at hg
        linarith
    have hdenom_pos : 0 < sp - (sp - hp) * tb.tax_rate := by nlinarith
    set s1 := (tb.tax_exemption + tb.loss_pot) / (sp - hp) with hs1
    have hs1_nonneg : 0 ≤ s1 := div_nonneg (by linarith) hd.le
    have hs1d : s1 * (sp - hp) = tb.tax_exemption + tb.loss_pot :=
      div_mul_cancel₀ _ (ne_of_gt hd)
    have hrem_pos : 0 < target - s1 * sp := by
      have h2 : (tb.tax_exemption + tb.loss_pot) * sp < target * (sp - hp) := by
        rw [div_mul_eq_mul_div] at hg
        exact (lt_div_iff hsp).mp hg
      have h3 : s1 * sp = (tb.tax_exemption + tb.loss_pot) * sp / (sp - hp) := by
        rw [hs1]; ring
      have h4 : (tb.tax_exemption + tb.loss_pot) * sp / (sp - hp) < target :=
        (div_lt_iff hd).mpr h2
      rw [h3]
      linarith
    set a := (target - s1 * sp) / (sp - (sp - hp) * tb.tax_rate) with ha
    have ha_pos : 0 < a := div_pos hrem_pos hdenom_pos
    have had : a * (sp - (sp - hp) * tb.tax_rate) = target - s1 * sp :=
      div_mul_cancel₀ _ (ne_of_gt hdenom_pos)
    have hgain : (s1 + a) * (sp - hp) = tb.tax_exemption + tb.loss_pot + a * (sp - hp) := by
      have h5 : (s1 + a) * (sp - hp) = s1 * (sp - hp) + a * (sp - hp) := by ring
      rw [h5, hs1d]
    have had_pos : 0 < a * (sp - hp) := mul_pos ha_pos hd
    have htax : tb.determine_taxable sp hp (s1 + a) = a * (sp - hp) := by
      rw [taxable_closed_form _ _ _ _ hE]
      have h6 : max 0 ((s1 + a) * (sp - hp) - tb.loss_pot) =
          tb.tax_exemption + a * (sp - hp) := by
        rw [max_eq_right (by nlinarith)]
        rw [hgain]
        ring
      rw [h6]
      rw [show tb.tax_exemption + a * (sp - hp) - tb.tax_exemption = a * (sp - hp) by ring]
      exact max_eq_right had_pos.le
    refine ⟨by linarith, ?_⟩
    rw [htax, calculate_taxes_fst]
    have expand : (s1 + a) * sp - a * (sp - hp) * tb.tax_rate =
        s1 * sp + a * (sp - (sp - hp) * tb.tax_rate) := by ring
    rw [expand, had]
    ring

/-- C1: for strictly positive target, sale price and historical price with
`historical_price ≤ sale_price`, and a tax base with non-negative exemption
and loss pot and tax rate in [0,1), `nr_shares_for_net_proceeds` returns a
non-negative share count that nets the target exactly (hence within the 1e-4
relative tolerance the code checks with `math.isclose`). -/
theorem C1_shares_round_trip (tb : TaxBase) (target sp hp : ℚ)
    (htarget : 0 < target) (hsp : 0 < sp) (hhp : 0 < hp) (hle : hp ≤ sp)
    (hE : 0 ≤ tb.tax_exemption) (hL : 0 ≤ tb.loss_pot)
    (hr0 : 0 ≤ tb.tax_rate) (hr1 : tb.tax_rate < 1) :
    ∃ s, tb.nr_shares_for_net_proceeds target sp hp = some s ∧ 0 ≤ s ∧
      s * sp - (tb.calculate_taxes (tb.determine_taxable sp hp s) sp s).1 = target ∧
      isclose (s * sp - (tb.calculate_taxes (tb.determine_taxable sp hp s) sp s).1) target
        = true := by
  obtain ⟨hs_nonneg, hrt⟩ :=
    req_shares_round_trip tb target sp hp htarget hsp hhp hle hE hL hr0 hr1
  refine ⟨tb.req_shares_calc target sp hp, ?_, hs_nonneg, hrt, ?_⟩
  · rw [TaxBase.nr_shares_for_net_proceeds]
    rw [if_neg (by simp only [not_or, not_le]; exact ⟨htarget, hsp, hhp⟩)]
    dsimp only
    rw [hrt, isclose_self, if_pos rfl, if_neg (not_lt.mpr hs_nonneg)]
  · rw [hrt]
    exact isclose_self target

/-- C1 witness: the round trip at target 10000, sale price 100, historical
price 50 against the default tax base (exemption 1000, loss pot 0, tax rate
0.26375), a case that exhausts the allowance and uses the tax-adjusted
price for the remainder. -/
theorem C1_witness :
    (0 : ℚ) < 10000 ∧ (0 : ℚ) < 100 ∧ (0 : ℚ) < 50 ∧ (50 : ℚ) ≤ 100 ∧
    (0 : ℚ) ≤ 1000 ∧ (0 : ℚ) ≤ 0 ∧ (0 : ℚ) ≤ 26375 / 100000 ∧ (26375 / 100000 : ℚ) < 1 ∧
    ∃ s, (TaxBase.mk 1000 0 0 (26375 / 100000)).nr_shares_for_net_proceeds 10000 100 50 =
        some s ∧ 0 ≤ s ∧
      s * 100 - ((TaxBase.mk 1000 0 0 (26375 / 100000)).calculate_taxes
        ((TaxBase.mk 1000 0 0 (26375 / 100000)).determine_taxable 100 50 s) 100 s).1 =
        10000 ∧
      isclose (s * 100 - ((TaxBase.mk 1000 0 0 (26375 / 100000)).calculate_taxes
        ((TaxBase.mk 1000 0 0 (26375 / 100000)).determine_taxable 100 50 s) 100 s).1)
        10000 = true :=
  ⟨by norm_num, by norm_num, by norm_num, by norm_num, by norm_num, le_refl 0,
    by norm_num, by norm_num,
    C1_shares_round_trip (TaxBase.mk 1000 0 0 (26375 / 100000)) 10000 100 50
      (by norm_num) (by norm_num) (by norm_num) (by norm_num) (by norm_num) (le_refl 0)
      (by norm_num) (by norm_num)⟩

/-! ### Claim C2: the non-partial `sell_net_volume` failure path -/

/-- The while loop of `Portfolio.sell_net_volume` (tax_estimator.py lines
88-119), with a fuel parameter for the unbounded Python loop (every theorem
below supplies enough fuel; `none` on exhausted fuel is a modelling artifact
that the theorems never reach). The state is the portfolio, the accumulated
`net_proceeds`, and the accumulated `sale_transactions`. `fifo_copy` is the
snapshot taken at line 88, restored in the non-partial `StopIteration`
handler; the tax base is *not* part of the snapshot. A `StopIteration`
escaping `sell_shares` (line 102/106) also lands in the handler, with the
inventory drained and no tax adjustment applied for that sell. Uncaught
`ValueError`s (negative sale price at line 52, solver failure at line 99)
are `none`. -/
def sellNetLoop (target_net_proceeds sale_price : ℚ) (part_sale : Bool) (fifo_copy : List Lot) :
    Nat → Portfolio → ℚ → Transactions → Option (Transactions × Portfolio)
  | 0, _, _, _ => none
  | fuel + 1, p, net_proceeds, txs =>
    if round2 net_proceeds < round2 target_net_proceeds then
      if sale_price < 0 then none
      else
        match p.fifo with
        | [] =>
          if part_sale then some (txs, p)
          else some ([], { p with fifo := fifo_copy })
        | lot :: _ =>
          let available :=
            p.tax_base.determine_net_proceeds lot.nr_shares sale_price lot.historical_price
          if target_net_proceeds ≤ net_proceeds + available then
            match p.tax_base.nr_shares_for_net_proceeds target_net_proceeds sale_price
                lot.historical_price with
            | none => none
            | some shares_to_sell =>
              let np2 := net_proceeds +
                p.tax_base.determine_net_proceeds shares_to_sell sale_price lot.historical_price
              match p.sell_shares shares_to_sell sale_price with
              | none =>
                if part_sale then some (txs, { p with fifo := [] })
                else some ([], { p with fifo := fifo_copy })
              | some (_, p2) =>
                sellNetLoop target_net_proceeds sale_price part_sale fifo_copy fuel p2 np2
                  (dictInsert txs shares_to_sell lot.historical_price sale_price)
          else
            let np2 := net_proceeds +
              p.tax_base.determine_net_proceeds lot.nr_shares sale_price lot.historical_price
            match p.sell_shares lot.nr_shares sale_price with
            | none =>
              if part_sale then some (txs, { p with fifo := [] })
              else some ([], { p with fifo := fifo_copy })
            | some (_, p2) =>
              sellNetLoop target_net_proceeds sale_price part_sale fifo_copy fuel p2 np2
                (dictInsert txs lot.nr_shares lot.historical_price sale_price)
    else
      some (txs, p)

/-- `Portfolio.sell_net_volume` (tax_estimator.py lines 77-119): the loop
started on the current portfolio with zero accumulated proceeds, an empty
transaction record and the line-88 FIFO snapshot. One unit of fuel per lot
plus one for the final iteration always suffices on the paths proved below. -/
def Portfolio.sell_net_volume (p : Portfolio) (target_net_proceeds sale_price : ℚ)
    (part_sale : Bool) : Option (Transactions × Portfolio) :=
  sellNetLoop target_net_proceeds sale_price part_sale p.fifo (p.fifo.length + 1) p 0 []

/-- The tax base obtained by selling every lot of an inventory in FIFO order
(one `adjust_taxbase_via_sale` per lot, as the full-lot branch of
`sell_net_volume` performs through `sell_shares`). -/
def drainTaxBase (sale_price : ℚ) : TaxBase → List Lot → TaxBase
  | tb, [] => tb
  | tb, lot :: rest =>
    drainTaxBase sale_price
      (tb.adjust_taxbase_via_sale sale_price lot.historical_price lot.nr_shares).1 rest

/-- The total net proceeds obtainable by selling every lot of an inventory in
FIFO order, accumulated exactly as the full-lot branch of `sell_net_volume`
accumulates `net_proceeds` (each lot valued against the tax base as already
adjusted by its predecessors). -/
def drainNet (sale_price : ℚ) : TaxBase → List Lot → ℚ
  | _, [] => 0
  | tb, lot :: rest =>
    tb.determine_net_proceeds lot.nr_shares sale_price lot.historical_price +
      drainNet sale_price
        (tb.adjust_taxbase_via_sale sale_price lot.historical_price lot.nr_shares).1 rest

/-- `round2` is monotone. -/
lemma round2_mono {a b : ℚ} (h : a ≤ b) : round2 a ≤ round2 b := by
  unfold round2
  have h1 : (round (a * 100) : ℤ) ≤ round (b * 100) := by
    rw [round_eq, round_eq]
    exact Int.floor_le_floor (by linarith)
  have h2 : ((round (a * 100) : ℤ) : ℚ) ≤ ((round (b * 100) : ℤ) : ℚ) := by exact_mod_cast h1
  linarith

/-- Values separated after two-decimal rounding are separated before it. -/
lemma round2_lt_imp {a b : ℚ} (h : round2 a < round2 b) : a < b := by
  by_contra hc
  push_neg at hc
  exact absurd (round2_mono hc) (not_le.mpr h)

/-- The taxable amount never exceeds the gross proceeds of the sale. -/
lemma taxable_le_gross (tb : TaxBase) (sp hp n : ℚ)
    (hn : 0 ≤ n) (hsp : 0 ≤ sp) (hhp : 0 ≤ hp)
    (hE : 0 ≤ tb.tax_exemption) (hL : 0 ≤ tb.loss_pot) :
    tb.determine_taxable sp hp n ≤ n * sp := by
  rw [taxable_closed_form _ _ _ _ hE]
  have hgain : n * (sp - hp) ≤ n * sp := by nlinarith
  have h1 : max 0 (n * (sp - hp) - tb.loss_pot) ≤ n * sp :=
    max_le (mul_nonneg hn hsp) (by linarith)
  exact max_le (mul_nonneg hn hsp) (by linarith)

/-- Selling at a non-negative price never nets a negative amount when the tax
rate is at most one. -/
lemma determine_net_proceeds_nonneg (tb : TaxBase) (n sp hp : ℚ)
    (hn : 0 ≤ n) (hsp : 0 ≤ sp) (hhp : 0 ≤ hp)
    (hE : 0 ≤ tb.tax_exemption) (hL : 0 ≤ tb.loss_pot)
    (hr0 : 0 ≤ tb.tax_rate) (hr1 : tb.tax_rate ≤ 1) :
    0 ≤ tb.determine_net_proceeds n sp hp := by
  unfold TaxBase.determine_net_proceeds
  dsimp only
  rw [calculate_taxes_fst]
  have h0 := taxable_nonneg tb sp hp n
  have h1 := taxable_le_gross tb sp hp n hn hsp hhp hE hL
  nlinarith

/-- Field bookkeeping of `adjust_taxbase_via_sale`: exemption and loss pot
stay non-negative and the tax rate is unchanged. -/
lemma adjust_fields (tb : TaxBase) (sp hp n : ℚ) :
    0 ≤ (tb.adjust_taxbase_via_sale sp hp n).1.tax_exemption ∧
    0 ≤ (tb.adjust_taxbase_via_sale sp hp n).1.loss_pot ∧
    (tb.adjust_taxbase_via_sale sp hp n).1.tax_rate = tb.tax_rate := by
  unfold TaxBase.adjust_taxbase_via_sale
  exact ⟨le_max_left _ _, le_max_left _ _, rfl⟩

/-- Draining a well-formed inventory accumulates non-negative net proceeds. -/
lemma drainNet_nonneg (sp : ℚ) (hsp : 0 ≤ sp) :
    ∀ (lots : List Lot) (tb : TaxBase),
      (∀ lot ∈ lots, 0 < lot.nr_shares ∧ 0 < lot.historical_price) →
      0 ≤ tb.tax_exemption → 0 ≤ tb.loss_pot → 0 ≤ tb.tax_rate → tb.tax_rate ≤ 1 →
      0 ≤ drainNet sp tb lots := by
  intro lots
  induction lots with
  | nil => intro tb _ _ _ _ _; exact le_refl 0
  | cons lot rest ih =>
    intro tb hlots hE hL hr0 hr1
    have hlot := hlots lot (List.mem_cons_self _ _)
    have hrest := fun l hl => hlots l (List.mem_cons_of_mem _ hl)
    have hadj := adjust_fields tb sp lot.historical_price lot.nr_shares
    rw [drainNet]
    have h1 := determine_net_proceeds_nonneg tb lot.nr_shares sp lot.historical_price
      hlot.1.le hsp hlot.2.le hE hL hr0 hr1
    have h2 := ih (tb.adjust_taxbase_via_sale sp lot.historical_price lot.nr_shares).1
      hrest hadj.1 hadj.2.1 (by rw [hadj.2.2]; exact hr0) (by rw [hadj.2.2]; exact hr1)
    linarith

/-- The sell loop with nothing left to sell returns immediately. -/
lemma sellSharesLoop_zero (sp : ℚ) (fifo : List Lot) (txs : Transactions) :
    sellSharesLoop sp fifo 0 txs = some (txs, fifo) := by
  cases fifo <;> rw [sellSharesLoop] <;> rw [if_pos (le_refl (0 : ℚ))]

/-- Selling exactly the head lot's share count pops the head lot and applies
exactly its tax adjustment. -/
lemma sell_shares_full_head (lot : Lot) (rest : List Lot) (rid : Nat) (tb : TaxBase) (sp : ℚ)
    (hn : 0 < lot.nr_shares) :
    Portfolio.sell_shares ⟨lot :: rest, rid, tb⟩ lot.nr_shares sp =
      some ([(lot.nr_shares, lot.historical_price, sp)],
        ⟨rest, rid, (tb.adjust_taxbase_via_sale sp lot.historical_price lot.nr_shares).1⟩) := by
  rw [Portfolio.sell_shares]
  have hins : dictInsert [] lot.nr_shares lot.historical_price sp =
      [(lot.nr_shares, lot.historical_price, sp)] := by simp [dictInsert]
  have hloop : sellSharesLoop sp (lot :: rest) lot.nr_shares [] =
      some ([(lot.nr_shares, lot.historical_price, sp)], rest) := by
    rw [sellSharesLoop, if_neg (not_le.mpr hn), if_neg (lt_irrefl _), hins, sub_self,
      sellSharesLoop_zero]
  rw [hloop]
  simp [applyTransactionsToTaxBase]

/-- Main loop invariant for the failure path of the non-partial
`sell_net_volume`: if even after draining every remaining lot the rounded
accumulated proceeds stay below the rounded target, the loop sells every lot
in FIFO order, hits `StopIteration` on the empty inventory, restores the
FIFO snapshot, discards the transactions — and keeps the drained tax base. -/
lemma sellNetLoop_exhausts (target sp : ℚ) (hsp : 0 < sp) :
    ∀ (lots : List Lot) (tb : TaxBase) (net : ℚ) (txs : Transactions) (fuel rid : Nat)
      (fifo_copy : List Lot),
      lots.length < fuel →
      (∀ lot ∈ lots, 0 < lot.nr_shares ∧ 0 < lot.historical_price) →
      0 ≤ tb.tax_exemption → 0 ≤ tb.loss_pot → 0 ≤ tb.tax_rate → tb.tax_rate < 1 →
      0 ≤ net →
      round2 (net + drainNet sp tb lots) < round2 target →
      sellNetLoop target sp false fifo_copy fuel ⟨lots, rid, tb⟩ net txs =
        some ([], ⟨fifo_copy, rid, drainTaxBase sp tb lots⟩) := by
  intro lots
  induction lots with
  | nil =>
    intro tb net txs fuel rid fifo_copy hfuel hlots hE hL hr0 hr1 hnet hshort
    obtain ⟨f, rfl⟩ : ∃ f, fuel = f + 1 := ⟨fuel - 1, by omega⟩
    rw [drainNet, add_zero] at hshort
    rw [sellNetLoop, if_pos hshort, if_neg (not_lt.mpr hsp.le)]
    rfl
  | cons lot rest ih =>
    intro tb net txs fuel rid fifo_copy hfuel hlots hE hL hr0 hr1 hnet hshort
    obtain ⟨f, rfl⟩ : ∃ f, fuel = f + 1 := ⟨fuel - 1, by omega⟩
    have hlot := hlots lot (List.mem_cons_self _ _)
    have hrest : ∀ l ∈ rest, 0 < l.nr_shares ∧ 0 < l.historical_price :=
      fun l hl => hlots l (List.mem_cons_of_mem _ hl)
    have hadj := adjust_fields tb sp lot.historical_price lot.nr_shares
    have hdnp : 0 ≤ tb.determine_net_proceeds lot.nr_shares sp lot.historical_price :=
      determine_net_proceeds_nonneg tb lot.nr_shares sp lot.historical_price
        hlot.1.le hsp.le hlot.2.le hE hL hr0 hr1.le
    have hdrain_rest : 0 ≤ drainNet sp
        (tb.adjust_taxbase_via_sale sp lot.historical_price lot.nr_shares).1 rest :=
      drainNet_nonneg sp hsp.le rest _ hrest hadj.1 hadj.2.1
        (by rw [hadj.2.2]; exact hr0) (by rw [hadj.2.2]; exact hr1.le)
    have hdrain : drainNet sp tb (lot :: rest) =
        tb.determine_net_proceeds lot.nr_shares sp lot.historical_price +
          drainNet sp (tb.adjust_taxbase_via_sale sp lot.historical_price lot.nr_shares).1
            rest := rfl
    have hnet_lt : round2 net < round2 target := by
      refine lt_of_le_of_lt (round2_mono ?_) hshort
      rw [hdrain]
      linarith
    have htot_lt : net + drainNet sp tb (lot :: rest) < target := round2_lt_imp hshort
    have hbranch :
        ¬ target ≤ net + tb.determine_net_proceeds lot.nr_shares sp lot.historical_price := by
      push_neg
      rw [hdrain] at htot_lt
      linarith
    rw [sellNetLoop, if_pos hnet_lt, if_neg (not_lt.mpr hsp.le)]
    dsimp only
    rw [if_neg hbranch]
    rw [sell_shares_full_head lot rest rid tb sp hlot.1]
    dsimp only
    have hrec := ih (tb.adjust_taxbase_via_sale sp lot.historical_price lot.nr_shares).1
      (net + tb.determine_net_proceeds lot.nr_shares sp lot.historical_price)
      (dictInsert txs lot.nr_shares lot.historical_price sp) f rid fifo_copy
      (by simpa using Nat.lt_of_succ_lt_succ hfuel) hrest hadj.1 hadj.2.1
      (by rw [hadj.2.2]; exact hr0) (by rw [hadj.2.2]; exact hr1)
      (by linarith)
      (by rw [hdrain, ← add_assoc] at hshort; exact hshort)
    rw [hrec]
    rfl

/-- C2 counterexample: a non-partial `sell_net_volume` that cannot meet its
target does NOT leave the entire ledger identical to its pre-call state. On a
single 10-share lot (cost 50) with a zeroed tax base at 25% tax rate, asking
to net 10000 at sale price 100 fails and restores the FIFO — but the tax base
comes back with 125 of withheld taxes from the rolled-back sell, instead of
the pre-call 0. -/
theorem C2_counterexample :
    Portfolio.sell_net_volume ⟨[⟨1, 10, 50⟩], 1, ⟨0, 0, 0, 1 / 4⟩⟩ 10000 100 false =
      some ([], ⟨[⟨1, 10, 50⟩], 1, ⟨0, 0, 125, 1 / 4⟩⟩) ∧
    (⟨0, 0, 125, 1 / 4⟩ : TaxBase) ≠ (⟨0, 0, 0, 1 / 4⟩ : TaxBase) := by
  constructor
  · norm_num [Portfolio.sell_net_volume, sellNetLoop, round2, round_eq, Portfolio.sell_shares,
      sellSharesLoop, dictInsert, applyTransactionsToTaxBase, TaxBase.adjust_taxbase_via_sale,
      TaxBase.determine_taxable, TaxBase.calculate_taxes, TaxBase.determine_net_proceeds]
  · intro h
    have := congrArg TaxBase.withheld_taxes h
    norm_num at this

/-- C2 (amended): when a non-partial `sell_net_volume` cannot meet the target
(the rounded drained proceeds of the whole inventory stay below the rounded
target), it returns an empty transaction record and the FIFO lot inventory is
restored bit-for-bit to its pre-call state — but the referenced TaxBase is NOT
restored: it keeps the adjustments of every rolled-back per-lot sell (the
drained tax base). -/
theorem C2_amended_rollback (p : Portfolio) (target sp : ℚ)
    (hsp : 0 < sp)
    (hlots : ∀ lot ∈ p.fifo, 0 < lot.nr_shares ∧ 0 < lot.historical_price)
    (hE : 0 ≤ p.tax_base.tax_exemption) (hL : 0 ≤ p.tax_base.loss_pot)
    (hr0 : 0 ≤ p.tax_base.tax_rate) (hr1 : p.tax_base.tax_rate < 1)
    (hshort : round2 (drainNet sp p.tax_base p.fifo) < round2 target) :
    p.sell_net_volume target sp false =
      some ([], { p with tax_base := drainTaxBase sp p.tax_base p.fifo }) := by
  obtain ⟨fifo, rid, tb⟩ := p
  dsimp only at hlots hE hL hr0 hr1 hshort ⊢
  rw [Portfolio.sell_net_volume]
  dsimp only
  exact sellNetLoop_exhausts target sp hsp fifo tb 0 [] (fifo.length + 1) rid fifo
    (by omega) hlots hE hL hr0 hr1 (le_refl 0) (by rw [zero_add]; exact hshort)

/-- C2 witness: the amended rollback law on the concrete one-lot ledger of the
counterexample (drained proceeds 875 < target 10000). -/
theorem C2_witness :
    (0 : ℚ) < 100 ∧
    (∀ lot ∈ ([⟨1, 10, 50⟩] : List Lot), 0 < lot.nr_shares ∧ 0 < lot.historical_price) ∧
    round2 (drainNet 100 (⟨0, 0, 0, 1 / 4⟩ : TaxBase) [⟨1, 10, 50⟩]) < round2 10000 ∧
    Portfolio.sell_net_volume ⟨[⟨1, 10, 50⟩], 1, ⟨0, 0, 0, 1 / 4⟩⟩ 10000 100 false =
      some ([], ⟨[⟨1, 10, 50⟩], 1,
        drainTaxBase 100 (⟨0, 0, 0, 1 / 4⟩ : TaxBase) [⟨1, 10, 50⟩]⟩) :=
  ⟨by norm_num,
    by
      intro lot hlot
      simp only [List.mem_singleton] at hlot
      subst hlot
      norm_num,
    by
      norm_num [drainNet, round2, round_eq, TaxBase.determine_net_proceeds,
        TaxBase.determine_taxable, TaxBase.calculate_taxes, TaxBase.adjust_taxbase_via_sale],
    C2_amended_rollback ⟨[⟨1, 10, 50⟩], 1, ⟨0, 0, 0, 1 / 4⟩⟩ 10000 100 (by norm_num)
      (by
        intro lot hlot
        simp only [List.mem_singleton] at hlot
        subst hlot
        norm_num)
      (le_refl 0) (le_refl 0) (by norm_num) (by norm_num)
      (by
        norm_num [drainNet, round2, round_eq, TaxBase.determine_net_proceeds,
          TaxBase.determine_taxable, TaxBase.calculate_taxes,
          TaxBase.adjust_taxbase_via_sale])⟩
